import Mathlib

/-!
Shallow embedding of `src/floodfill.py` (BFS flood fill, three variants) and
verification of its specified properties.

Modelling conventions:
* a grid is `List (List String)`, exactly the Python `List[List[str]]`;
* coordinates are `Int` (Python integers may be negative);
* the BFS `while queue:` loop is a fuel-indexed recursion; the top-level
  functions pass fuel `height * width`, and the correctness lemmas prove this
  fuel is never exhausted (each iteration either dequeues a visited cell or
  enqueues fresh ones, so iterations are bounded by the cell count);
* the `animate`/`visualizer`/`delay` parameters are omitted: the progress hook
  is specified not to change the grid or the traversal state;
* `raise IndexError(msg)` is modelled by the `err` field of `FillResult`,
  with `grid` the caller-visible grid state at return or raise time;
* Python truthiness of `boundary_shape` (`if boundary_shape and ...`): `None`
  and the empty string are falsy, any other string is truthy.
-/

namespace FloodFill

/-- A grid, as in the source: a list of rows, each a list of string cells. -/
abbrev Grid := List (List String)

/-- Row count, `height = len(grid)`. -/
def gridHeight (g : Grid) : Nat := g.length

/-- Column count, `width = len(grid[0]) if height > 0 else 0`. -/
def gridWidth : Grid → Nat
  | [] => 0
  | row :: _ => row.length

/-- Cell read `grid[row][col]`. Every read in the source is guarded by the
bounds test, so the fallback values are never observed. -/
def getCell (g : Grid) (r c : Int) : String :=
  (g.getD r.toNat []).getD c.toNat ""

/-- Cell write `grid[row][col] = v`. -/
def setCell (g : Grid) (r c : Int) (v : String) : Grid :=
  g.set r.toNat ((g.getD r.toNat []).set c.toNat v)

/-- The bounds test of the source `0 <= r < height and 0 <= c < width`. -/
def inBounds (H W : Nat) (r c : Int) : Prop :=
  0 ≤ r ∧ r < (H : Int) ∧ 0 ≤ c ∧ c < (W : Int)

instance (H W : Nat) (r c : Int) : Decidable (inBounds H W r c) := by
  unfold inBounds; infer_instance

/-- The guard `boundary_shape and s == boundary_shape` of the source, with
Python truthiness: `None` and the empty string are falsy. -/
def isBoundary (b : Option String) (s : String) : Prop :=
  match b with
  | none => False
  | some t => t ≠ "" ∧ s = t

instance (b : Option String) (s : String) : Decidable (isBoundary b s) := by
  unfold isBoundary; cases b <;> infer_instance

/-- `directions = [(-1, 0), (1, 0), (0, 1), (0, -1)]` (up, down, right, left). -/
def cardinalDirs : List (Int × Int) := [(-1, 0), (1, 0), (0, 1), (0, -1)]

/-- The eight directions of `flood_fill_diagonal`. -/
def diagonalDirs : List (Int × Int) :=
  [(-1, 0), (1, 0), (0, 1), (0, -1), (-1, -1), (-1, 1), (1, -1), (1, 1)]

/-- The inner `for dr, dc in directions:` loop of `perform_flood_fill` and
`flood_fill_diagonal`: extend the queue and the visited set with each
in-bounds, unvisited neighbour that still holds the original value. -/
def scanNbrs (H W : Nat) (g : Grid) (orig : String) (r c : Int) :
    List (Int × Int) → List (Int × Int) → List (Int × Int) →
      List (Int × Int) × List (Int × Int)
  | [], q, v => (q, v)
  | d :: ds, q, v =>
    let nr := r + d.1
    let nc := c + d.2
    if inBounds H W nr nc ∧ (nr, nc) ∉ v ∧ getCell g nr nc = orig then
      scanNbrs H W g orig r c ds (q ++ [(nr, nc)]) (v ++ [(nr, nc)])
    else
      scanNbrs H W g orig r c ds q v

/-- The inner `for dr, dc in directions:` loop of `flood_fill_with_boundary`:
a neighbour equal to a truthy boundary value is skipped (`continue`) before
the original-value test. -/
def scanNbrsB (H W : Nat) (g : Grid) (orig : String) (b : Option String) (r c : Int) :
    List (Int × Int) → List (Int × Int) → List (Int × Int) →
      List (Int × Int) × List (Int × Int)
  | [], q, v => (q, v)
  | d :: ds, q, v =>
    let nr := r + d.1
    let nc := c + d.2
    if inBounds H W nr nc ∧ (nr, nc) ∉ v then
      if isBoundary b (getCell g nr nc) then
        scanNbrsB H W g orig b r c ds q v
      else if getCell g nr nc = orig then
        scanNbrsB H W g orig b r c ds (q ++ [(nr, nc)]) (v ++ [(nr, nc)])
      else
        scanNbrsB H W g orig b r c ds q v
    else
      scanNbrsB H W g orig b r c ds q v

/-- The `while queue:` loop shared verbatim by `perform_flood_fill` and
`flood_fill_diagonal` (they differ only in the `directions` value).
Returns the final grid, queue, visited set and `cells_filled` counter. -/
def floodLoop (dirs : List (Int × Int)) (H W : Nat) (orig new : String) :
    Nat → Grid → List (Int × Int) → List (Int × Int) → Nat →
      Grid × List (Int × Int) × List (Int × Int) × Nat
  | 0, g, q, v, n => (g, q, v, n)
  | fuel + 1, g, q, v, n =>
    match q with
    | [] => (g, [], v, n)
    | (r, c) :: rest =>
      if getCell g r c = orig then
        let g2 := setCell g r c new
        let qv := scanNbrs H W g2 orig r c dirs rest v
        floodLoop dirs H W orig new fuel g2 qv.1 qv.2 (n + 1)
      else
        floodLoop dirs H W orig new fuel g rest v n

/-- The `while queue:` loop of `flood_fill_with_boundary`. -/
def floodLoopB (dirs : List (Int × Int)) (H W : Nat) (orig new : String)
    (b : Option String) :
    Nat → Grid → List (Int × Int) → List (Int × Int) → Nat →
      Grid × List (Int × Int) × List (Int × Int) × Nat
  | 0, g, q, v, n => (g, q, v, n)
  | fuel + 1, g, q, v, n =>
    match q with
    | [] => (g, [], v, n)
    | (r, c) :: rest =>
      if getCell g r c = orig then
        let g2 := setCell g r c new
        let qv := scanNbrsB H W g2 orig b r c dirs rest v
        floodLoopB dirs H W orig new b fuel g2 qv.1 qv.2 (n + 1)
      else
        floodLoopB dirs H W orig new b fuel g rest v n

/-- Result of one fill call: the optional raised error message, the grid as
the caller sees it afterwards, and the returned `cells_filled` count. -/
structure FillResult where
  err : Option String
  grid : Grid
  count : Nat
  deriving DecidableEq

/-- Embedding of `perform_flood_fill` (4-directional BFS fill). -/
def perform_flood_fill (grid : Grid) (start_row start_col : Int)
    (new_shape : String) : FillResult :=
  let height := gridHeight grid
  let width := gridWidth grid
  if ¬ inBounds height width start_row start_col then
    { err := some "Starting coordinates are outside the grid", grid := grid, count := 0 }
  else
    let original_shape := getCell grid start_row start_col
    if original_shape = new_shape then
      { err := none, grid := grid, count := 0 }
    else
      let res := floodLoop cardinalDirs height width original_shape new_shape
        (height * width) grid [(start_row, start_col)] [(start_row, start_col)] 0
      { err := none, grid := res.1, count := res.2.2.2 }

/-- Embedding of `flood_fill_diagonal` (8-directional BFS fill). -/
def flood_fill_diagonal (grid : Grid) (start_row start_col : Int)
    (new_shape : String) : FillResult :=
  let height := gridHeight grid
  let width := gridWidth grid
  if ¬ inBounds height width start_row start_col then
    { err := some "Starting coordinates are outside the grid", grid := grid, count := 0 }
  else
    let original_shape := getCell grid start_row start_col
    if original_shape = new_shape then
      { err := none, grid := grid, count := 0 }
    else
      let res := floodLoop diagonalDirs height width original_shape new_shape
        (height * width) grid [(start_row, start_col)] [(start_row, start_col)] 0
      { err := none, grid := res.1, count := res.2.2.2 }

/-- Embedding of `flood_fill_with_boundary` (4-directional BFS fill stopping
at a truthy boundary value; `boundary_shape` defaults to `None` in the
source, passed explicitly here). -/
def flood_fill_with_boundary (grid : Grid) (start_row start_col : Int)
    (new_shape : String) (boundary_shape : Option String) : FillResult :=
  let height := gridHeight grid
  let width := gridWidth grid
  if ¬ inBounds height width start_row start_col then
    { err := some "Starting coordinates are outside the grid", grid := grid, count := 0 }
  else
    let original_shape := getCell grid start_row start_col
    if original_shape = new_shape ∨ isBoundary boundary_shape original_shape then
      { err := none, grid := grid, count := 0 }
    else
      let res := floodLoopB cardinalDirs height width original_shape new_shape
        boundary_shape (height * width) grid
        [(start_row, start_col)] [(start_row, start_col)] 0
      { err := none, grid := res.1, count := res.2.2.2 }

/-- The grid invariant assumed by the spec: all rows have the width derived
from the first row. -/
def rectangular (g : Grid) : Prop := ∀ row ∈ g, row.length = gridWidth g

instance (g : Grid) : Decidable (rectangular g) := by
  unfold rectangular; infer_instance

/-- Reachability from `s` along steps of `dirs` through in-bounds cells of
`g` that hold `orig` and are not excluded by a truthy boundary value `b`.
This is the connected component of the seed in the sense of the spec. -/
inductive ReachB (dirs : List (Int × Int)) (g : Grid) (orig : String)
    (b : Option String) (s : Int × Int) : Int × Int → Prop
  | refl : ReachB dirs g orig b s s
  | step {p d : Int × Int} :
      ReachB dirs g orig b s p → d ∈ dirs →
      inBounds (gridHeight g) (gridWidth g) (p.1 + d.1) (p.2 + d.2) →
      ¬ isBoundary b (getCell g (p.1 + d.1) (p.2 + d.2)) →
      getCell g (p.1 + d.1) (p.2 + d.2) = orig →
      ReachB dirs g orig b s (p.1 + d.1, p.2 + d.2)

/-- Reachability with no boundary value: the adjacency-through-original-value
relation of the two plain fill variants. -/
def Reach (dirs : List (Int × Int)) (g : Grid) (orig : String)
    (s p : Int × Int) : Prop :=
  ReachB dirs g orig none s p

/-- The in-bounds coordinates of an `H × W` grid as a finite set. -/
def boundsFinset (H W : Nat) : Finset (Int × Int) :=
  ((Finset.range H) ×ˢ (Finset.range W)).image fun ij => ((ij.1 : Int), (ij.2 : Int))

/-- The cells whose value differs between `g` (before) and `g2` (after). -/
def changedCells (g g2 : Grid) : Finset (Int × Int) :=
  (boundsFinset (gridHeight g) (gridWidth g)).filter
    fun p => getCell g2 p.1 p.2 ≠ getCell g p.1 p.2

/-- The loop invariant of the BFS traversal, relative to the initial grid
`g0`, the captured original value, the replacement value, the boundary
option and the seed `s`. -/
structure Inv (dirs : List (Int × Int)) (g0 : Grid) (orig new : String)
    (b : Option String) (s : Int × Int)
    (g : Grid) (q v : List (Int × Int)) (n : Nat) : Prop where
  hsub : ∀ p ∈ q, p ∈ v
  hvnd : v.Nodup
  hqnd : q.Nodup
  hvin : ∀ p ∈ v, inBounds (gridHeight g0) (gridWidth g0) p.1 p.2
  hvorig : ∀ p ∈ v, getCell g0 p.1 p.2 = orig
  hvreach : ∀ p ∈ v, ReachB dirs g0 orig b s p
  hseed : s ∈ v
  hlen : g.length = g0.length
  hrowlen : ∀ i, (g.getD i []).length = (g0.getD i []).length
  hgrid : ∀ p : Int × Int, inBounds (gridHeight g0) (gridWidth g0) p.1 p.2 →
    getCell g p.1 p.2 = if p ∈ v ∧ p ∉ q then new else getCell g0 p.1 p.2
  hcount : n + q.length = v.length
  hclosed : ∀ p ∈ v, p ∉ q → ∀ d ∈ dirs,
    inBounds (gridHeight g0) (gridWidth g0) (p.1 + d.1) (p.2 + d.2) →
    ¬ isBoundary b (getCell g0 (p.1 + d.1) (p.2 + d.2)) →
    getCell g0 (p.1 + d.1) (p.2 + d.2) = orig →
    (p.1 + d.1, p.2 + d.2) ∈ v

/-! Basic list access lemmas. -/

theorem getD_set_lt {α : Type} :
    ∀ (l : List α) (n : Nat) (a d : α), n < l.length → (l.set n a).getD n d = a := by
  intro l
  induction l with
  | nil => intro n a d h; simp at h
  | cons x xs ih =>
    intro n a d h
    cases n with
    | zero => rfl
    | succ m =>
      have h2 : m < xs.length := by simpa using h
      simpa [List.getD_cons_succ] using ih m a d h2

theorem getD_set_ne {α : Type} :
    ∀ (l : List α) (m n : Nat) (a d : α), m ≠ n → (l.set m a).getD n d = l.getD n d := by
  intro l
  induction l with
  | nil => intro m n a d _; simp
  | cons x xs ih =>
    intro m n a d h
    cases m with
    | zero =>
      cases n with
      | zero => exact absurd rfl h
      | succ j => simp [List.getD_cons_succ]
    | succ i =>
      cases n with
      | zero => simp [List.getD_cons_zero]
      | succ j =>
        have h2 : i ≠ j := fun he => h (by rw [he])
        simpa [List.getD_cons_succ] using ih i j a d h2

theorem set_oob {α : Type} :
    ∀ (l : List α) (n : Nat) (a : α), l.length ≤ n → l.set n a = l := by
  intro l
  induction l with
  | nil => intro n a _; simp
  | cons x xs ih =>
    intro n a h
    cases n with
    | zero => simp at h
    | succ m =>
      have h2 : xs.length ≤ m := by simpa using h
      simp [List.set, ih m a h2]

theorem getD_mem {α : Type} :
    ∀ (l : List α) (n : Nat) (d : α), n < l.length → l.getD n d ∈ l := by
  intro l
  induction l with
  | nil => intro n d h; simp at h
  | cons x xs ih =>
    intro n d h
    cases n with
    | zero => simp [List.getD_cons_zero]
    | succ m =>
      have h2 : m < xs.length := by simpa using h
      simpa [List.getD_cons_succ] using List.mem_cons_of_mem x (ih m d h2)

/-! Lemmas on grid access. -/

theorem length_setCell (g : Grid) (r c : Int) (v : String) :
    (setCell g r c v).length = g.length := by
  simp [setCell]

theorem rowlen_setCell (g : Grid) (r c : Int) (v : String) (i : Nat) :
    ((setCell g r c v).getD i []).length = (g.getD i []).length := by
  by_cases h : r.toNat = i
  · subst h
    by_cases hl : r.toNat < g.length
    · rw [setCell, getD_set_lt _ _ _ _ hl, List.length_set]
    · rw [setCell, set_oob _ _ _ (Nat.le_of_not_lt hl)]
  · rw [setCell, getD_set_ne _ _ _ _ _ h]

theorem getCell_setCell_self (g : Grid) (r c : Int) (v : String)
    (hr : r.toNat < g.length) (hc : c.toNat < (g.getD r.toNat []).length) :
    getCell (setCell g r c v) r c = v := by
  rw [getCell, setCell, getD_set_lt _ _ _ _ hr, getD_set_lt _ _ _ _ hc]

theorem getCell_setCell_ne (g : Grid) (r c r2 c2 : Int) (v : String)
    (h : (r.toNat, c.toNat) ≠ (r2.toNat, c2.toNat)) :
    getCell (setCell g r c v) r2 c2 = getCell g r2 c2 := by
  by_cases hr : r.toNat = r2.toNat
  · have hc : c.toNat ≠ c2.toNat := by
      intro he; exact h (by rw [hr, he])
    by_cases hl : r.toNat < g.length
    · rw [getCell, setCell, ← hr, getD_set_lt _ _ _ _ hl, getD_set_ne _ _ _ _ _ hc,
        getCell, hr]
    · rw [setCell, set_oob _ _ _ (Nat.le_of_not_lt hl)]
  · rw [getCell, setCell, getD_set_ne _ _ _ _ _ hr, getCell]

theorem inBounds_toNat_ne {H W : Nat} {p p2 : Int × Int}
    (hp : inBounds H W p.1 p.2) (hp2 : inBounds H W p2.1 p2.2) (h : p ≠ p2) :
    (p.1.toNat, p.2.toNat) ≠ (p2.1.toNat, p2.2.toNat) := by
  obtain ⟨a, b⟩ := p
  obtain ⟨a2, b2⟩ := p2
  obtain ⟨h1, h2, h3, h4⟩ := hp
  obtain ⟨h5, h6, h7, h8⟩ := hp2
  intro he
  rw [Prod.mk.injEq] at he
  apply h
  rw [Prod.mk.injEq]
  constructor <;> omega

theorem rect_row (g : Grid) (hrect : rectangular g) (i : Nat) (hi : i < g.length) :
    (g.getD i []).length = gridWidth g :=
  hrect _ (getD_mem g i [] hi)

theorem gridWidth_eq_getD (g : Grid) : gridWidth g = (g.getD 0 []).length := by
  cases g with
  | nil => rfl
  | cons row rest => rfl

/-! Cardinality bound for the visited set. -/

theorem nodup_inBounds_length_le (H W : Nat) (v : List (Int × Int))
    (hnd : v.Nodup) (hin : ∀ p ∈ v, inBounds H W p.1 p.2) :
    v.length ≤ H * W := by
  classical
  have hinj : ∀ p ∈ v, ∀ p2 ∈ v,
      (p.1.toNat, p.2.toNat) = (p2.1.toNat, p2.2.toNat) → p = p2 := by
    intro p hp p2 hp2 he
    by_contra hne
    exact inBounds_toNat_ne (hin p hp) (hin p2 hp2) hne he
  have hmap : (v.map fun p : Int × Int => (p.1.toNat, p.2.toNat)).Nodup :=
    hnd.map_on hinj
  have hsub : (v.map fun p : Int × Int => (p.1.toNat, p.2.toNat)).toFinset ⊆
      Finset.range H ×ˢ Finset.range W := by
    intro x hx
    rw [List.mem_toFinset, List.mem_map] at hx
    obtain ⟨p, hp, rfl⟩ := hx
    have hb := hin p hp
    obtain ⟨h1, h2, h3, h4⟩ := hb
    rw [Finset.mem_product, Finset.mem_range, Finset.mem_range]
    constructor <;> omega
  have hcard := Finset.card_le_card hsub
  rw [List.toFinset_card_of_nodup hmap, List.length_map] at hcard
  simpa [Finset.card_range] using hcard

theorem mem_boundsFinset (H W : Nat) (p : Int × Int) :
    p ∈ boundsFinset H W ↔ inBounds H W p.1 p.2 := by
  unfold boundsFinset
  rw [Finset.mem_image]
  constructor
  · rintro ⟨ij, hij, rfl⟩
    rw [Finset.mem_product, Finset.mem_range, Finset.mem_range] at hij
    obtain ⟨h1, h2⟩ := hij
    refine ⟨by omega, by omega, by omega, by omega⟩
  · rintro ⟨h1, h2, h3, h4⟩
    refine ⟨(p.1.toNat, p.2.toNat), ?_, ?_⟩
    · rw [Finset.mem_product, Finset.mem_range, Finset.mem_range]
      constructor <;> omega
    · obtain ⟨a, b⟩ := p
      rw [Prod.mk.injEq]
      constructor <;> simp <;> omega

/-! Reachability lemmas. -/

theorem ReachB.mono_dirs {dirs1 dirs2 : List (Int × Int)}
    (hsub : ∀ d ∈ dirs1, d ∈ dirs2) {g : Grid} {orig : String} {b : Option String}
    {s p : Int × Int} (h : ReachB dirs1 g orig b s p) : ReachB dirs2 g orig b s p := by
  induction h with
  | refl => exact .refl
  | step _ hd hin hnb ho ih => exact .step ih (hsub _ hd) hin hnb ho

/-- Specification of the inner neighbour scan of `flood_fill_with_boundary`:
it appends to the queue and to the visited set one common list `news` of
fresh, in-bounds, non-boundary neighbours holding the original value, and it
misses no such neighbour. -/
theorem scanNbrsB_spec (H W : Nat) (g : Grid) (orig : String) (b : Option String)
    (r c : Int) :
    ∀ (ds : List (Int × Int)) (q v : List (Int × Int)),
      ∃ news : List (Int × Int),
        scanNbrsB H W g orig b r c ds q v = (q ++ news, v ++ news) ∧
        news.Nodup ∧
        (∀ p ∈ news, p ∉ v ∧ inBounds H W p.1 p.2 ∧
          ¬ isBoundary b (getCell g p.1 p.2) ∧ getCell g p.1 p.2 = orig ∧
          ∃ d ∈ ds, p = (r + d.1, c + d.2)) ∧
        (∀ d ∈ ds, inBounds H W (r + d.1) (c + d.2) →
          ¬ isBoundary b (getCell g (r + d.1) (c + d.2)) →
          getCell g (r + d.1) (c + d.2) = orig →
          (r + d.1, c + d.2) ∈ v ∨ (r + d.1, c + d.2) ∈ news) := by
  intro ds
  induction ds with
  | nil =>
    intro q v
    exact ⟨[], by simp [scanNbrsB], by simp, by simp, by simp⟩
  | cons d ds ih =>
    intro q v
    by_cases h1 : inBounds H W (r + d.1) (c + d.2) ∧ (r + d.1, c + d.2) ∉ v
    · by_cases h2 : isBoundary b (getCell g (r + d.1) (c + d.2))
      · obtain ⟨news, heq, hnd, hprops, hcov⟩ := ih q v
        refine ⟨news, ?_, hnd, ?_, ?_⟩
        · rw [scanNbrsB, if_pos h1, if_pos h2]; exact heq
        · intro p hp
          obtain ⟨ha, hb2, hc, hd2, e, he, hpe⟩ := hprops p hp
          exact ⟨ha, hb2, hc, hd2, e, List.mem_cons_of_mem d he, hpe⟩
        · intro e he hin hnb ho
          rcases List.mem_cons.mp he with rfl | he2
          · exact absurd h2 hnb
          · exact hcov e he2 hin hnb ho
      · by_cases h3 : getCell g (r + d.1) (c + d.2) = orig
        · obtain ⟨news, heq, hnd, hprops, hcov⟩ :=
            ih (q ++ [(r + d.1, c + d.2)]) (v ++ [(r + d.1, c + d.2)])
          refine ⟨(r + d.1, c + d.2) :: news, ?_, ?_, ?_, ?_⟩
          · rw [scanNbrsB, if_pos h1, if_neg h2, if_pos h3, heq]
            simp
          · refine List.nodup_cons.mpr ⟨?_, hnd⟩
            intro hmem
            have := (hprops _ hmem).1
            simp at this
          · intro p hp
            rcases List.mem_cons.mp hp with rfl | hp2
            · exact ⟨h1.2, h1.1, h2, h3, d, List.mem_cons_self d ds, rfl⟩
            · obtain ⟨ha, hb2, hc, hd2, e, he, hpe⟩ := hprops p hp2
              refine ⟨fun hv => ha (List.mem_append_left _ hv), hb2, hc, hd2,
                e, List.mem_cons_of_mem d he, hpe⟩
          · intro e he hin hnb ho
            rcases List.mem_cons.mp he with rfl | he2
            · exact Or.inr (List.mem_cons_self _ _)
            · rcases hcov e he2 hin hnb ho with hv | hn
              · rcases List.mem_append.mp hv with hv2 | hv2
                · exact Or.inl hv2
                · simp at hv2
                  obtain ⟨h5, h6⟩ := hv2
                  exact Or.inr (by rw [h5, h6]; exact List.mem_cons_self _ _)
              · exact Or.inr (List.mem_cons_of_mem _ hn)
        · obtain ⟨news, heq, hnd, hprops, hcov⟩ := ih q v
          refine ⟨news, ?_, hnd, ?_, ?_⟩
          · rw [scanNbrsB, if_pos h1, if_neg h2, if_neg h3]; exact heq
          · intro p hp
            obtain ⟨ha, hb2, hc, hd2, e, he, hpe⟩ := hprops p hp
            exact ⟨ha, hb2, hc, hd2, e, List.mem_cons_of_mem d he, hpe⟩
          · intro e he hin hnb ho
            rcases List.mem_cons.mp he with rfl | he2
            · exact absurd ho h3
            · exact hcov e he2 hin hnb ho
    · obtain ⟨news, heq, hnd, hprops, hcov⟩ := ih q v
      refine ⟨news, ?_, hnd, ?_, ?_⟩
      · rw [scanNbrsB, if_neg h1]; exact heq
      · intro p hp
        obtain ⟨ha, hb2, hc, hd2, e, he, hpe⟩ := hprops p hp
        exact ⟨ha, hb2, hc, hd2, e, List.mem_cons_of_mem d he, hpe⟩
      · intro e he hin hnb ho
        rcases List.mem_cons.mp he with rfl | he2
        · rcases not_and_or.mp h1 with hx | hx
          · exact absurd hin hx
          · exact Or.inl (not_not.mp hx)
        · exact hcov e he2 hin hnb ho


/-- One iteration of the BFS loop preserves the invariant: the dequeued cell
still holds the original value, and after writing it and scanning its
neighbours the invariant holds for the extended queue and visited set. -/
theorem Inv_step {dirs : List (Int × Int)} {g0 : Grid} {orig new : String}
    {b : Option String} {s : Int × Int} (hrect : rectangular g0)
    {g : Grid} {r c : Int} {rest v : List (Int × Int)} {n : Nat}
    (inv : Inv dirs g0 orig new b s g ((r, c) :: rest) v n) :
    getCell g r c = orig ∧
    ∃ news : List (Int × Int),
      scanNbrsB (gridHeight g0) (gridWidth g0) (setCell g r c new) orig b r c
        dirs rest v = (rest ++ news, v ++ news) ∧
      Inv dirs g0 orig new b s (setCell g r c new) (rest ++ news) (v ++ news) (n + 1) := by
  have hpq : (r, c) ∈ (r, c) :: rest := List.mem_cons_self _ _
  have hpv : (r, c) ∈ v := inv.hsub _ hpq
  have hpin : inBounds (gridHeight g0) (gridWidth g0) r c := inv.hvin _ hpv
  have hnotrest : (r, c) ∉ rest := (List.nodup_cons.mp inv.hqnd).1
  have hrestnd : rest.Nodup := (List.nodup_cons.mp inv.hqnd).2
  have hcheck : getCell g r c = orig := by
    have hg := inv.hgrid (r, c) hpin
    rw [if_neg (by rintro ⟨-, hnq⟩; exact hnq hpq)] at hg
    rw [hg]
    exact inv.hvorig _ hpv
  obtain ⟨hb1, hb2, hb3, hb4⟩ := hpin
  have hH : (gridHeight g0 : Int) = (g0.length : Int) := rfl
  have hrlt : r < (g0.length : Int) := by rw [← hH]; exact hb2
  have hrn : r.toNat < g.length := by rw [inv.hlen]; omega
  have hcn : c.toNat < (g.getD r.toNat []).length := by
    rw [inv.hrowlen, rect_row g0 hrect r.toNat (by omega)]
    have hW : (gridWidth g0 : Int) = (gridWidth g0 : Int) := rfl
    omega
  have hpin2 : inBounds (gridHeight g0) (gridWidth g0) r c := ⟨hb1, hb2, hb3, hb4⟩
  have hset_self : getCell (setCell g r c new) r c = new :=
    getCell_setCell_self g r c new hrn hcn
  have hset_ne : ∀ p : Int × Int, inBounds (gridHeight g0) (gridWidth g0) p.1 p.2 →
      p ≠ (r, c) → getCell (setCell g r c new) p.1 p.2 = getCell g p.1 p.2 := by
    intro p hin hne
    exact getCell_setCell_ne g r c p.1 p.2 new
      (@inBounds_toNat_ne (gridHeight g0) (gridWidth g0) (r, c) p hpin2 hin (Ne.symm hne))
  obtain ⟨news, heq, hnnd, hprops, hcov⟩ :=
    scanNbrsB_spec (gridHeight g0) (gridWidth g0) (setCell g r c new) orig b r c
      dirs rest v
  have hfresh : ∀ p ∈ news, p ∉ v ∧ p ≠ (r, c) ∧
      inBounds (gridHeight g0) (gridWidth g0) p.1 p.2 ∧
      getCell g0 p.1 p.2 = orig ∧ ¬ isBoundary b (getCell g0 p.1 p.2) := by
    intro p hp
    obtain ⟨hnv, hin2, hnb2, ho2, -⟩ := hprops p hp
    have hne : p ≠ (r, c) := fun he => hnv (he ▸ hpv)
    have htrans : getCell (setCell g r c new) p.1 p.2 = getCell g0 p.1 p.2 := by
      rw [hset_ne p hin2 hne]
      have hg := inv.hgrid p hin2
      rw [if_neg (by rintro ⟨hv2, -⟩; exact hnv hv2)] at hg
      exact hg
    rw [htrans] at hnb2 ho2
    exact ⟨hnv, hne, hin2, ho2, hnb2⟩
  refine ⟨hcheck, news, heq, ?_⟩
  refine
    { hsub := ?_, hvnd := ?_, hqnd := ?_, hvin := ?_, hvorig := ?_, hvreach := ?_
      hseed := List.mem_append_left _ inv.hseed, hlen := ?_, hrowlen := ?_
      hgrid := ?_, hcount := ?_, hclosed := ?_ }
  · intro p hp
    rcases List.mem_append.mp hp with h | h
    · exact List.mem_append_left _ (inv.hsub _ (List.mem_cons_of_mem _ h))
    · exact List.mem_append_right _ h
  · exact inv.hvnd.append hnnd (fun a ha hna => (hfresh a hna).1 ha)
  · exact hrestnd.append hnnd
      (fun a ha hna => (hfresh a hna).1 (inv.hsub _ (List.mem_cons_of_mem _ ha)))
  · intro p hp
    rcases List.mem_append.mp hp with h | h
    · exact inv.hvin _ h
    · exact (hfresh _ h).2.2.1
  · intro p hp
    rcases List.mem_append.mp hp with h | h
    · exact inv.hvorig _ h
    · exact (hfresh _ h).2.2.2.1
  · intro p hp
    rcases List.mem_append.mp hp with h | h
    · exact inv.hvreach _ h
    · obtain ⟨-, -, -, -, d, hd, hpe⟩ := hprops p h
      obtain ⟨-, -, hin2, ho2, hnb2⟩ := hfresh p h
      subst hpe
      exact ReachB.step (inv.hvreach _ hpv) hd hin2 hnb2 ho2
  · rw [length_setCell, inv.hlen]
  · intro i
    rw [rowlen_setCell, inv.hrowlen]
  · intro p hin2
    by_cases hpe : p = (r, c)
    · subst hpe
      rw [hset_self, if_pos]
      refine ⟨List.mem_append_left _ hpv, ?_⟩
      intro hmem
      rcases List.mem_append.mp hmem with h | h
      · exact hnotrest h
      · exact (hfresh _ h).2.1 rfl
    · rw [hset_ne p hin2 hpe]
      have hg := inv.hgrid p hin2
      by_cases hv2 : p ∈ v
      · have hnnews : p ∉ news := fun h => (hfresh _ h).1 hv2
        by_cases hr2 : p ∈ rest
        · rw [if_neg (by rintro ⟨-, hq2⟩; exact hq2 (List.mem_cons_of_mem _ hr2))] at hg
          rw [hg, if_neg (by rintro ⟨-, hq2⟩; exact hq2 (List.mem_append_left _ hr2))]
        · rw [if_pos ⟨hv2, by
              intro hmem
              rcases List.mem_cons.mp hmem with he | he
              · exact hpe he
              · exact hr2 he⟩] at hg
          rw [hg, if_pos ⟨List.mem_append_left _ hv2, by
              intro hmem
              rcases List.mem_append.mp hmem with h | h
              · exact hr2 h
              · exact hnnews h⟩]
      · rw [if_neg (by rintro ⟨hv3, -⟩; exact hv2 hv3)] at hg
        rw [hg, if_neg ?_]
        rintro ⟨hmem, hnmem⟩
        rcases List.mem_append.mp hmem with h | h
        · exact hv2 h
        · exact hnmem (List.mem_append_right _ h)
  · have hc := inv.hcount
    simp only [List.length_append, List.length_cons] at hc ⊢
    omega
  · intro p hp hnq d hd hin2 hnb2 ho2
    rcases List.mem_append.mp hp with hpv2 | hpnews
    · by_cases hpe : p = (r, c)
      · subst hpe
        by_cases hxv : ((r, c).1 + d.1, (r, c).2 + d.2) ∈ v
        · exact List.mem_append_left _ hxv
        · have hxne : ((r, c).1 + d.1, (r, c).2 + d.2) ≠ (r, c) :=
            fun he => hxv (by rw [he]; exact hpv)
          have htrans : getCell (setCell g r c new) ((r, c).1 + d.1) ((r, c).2 + d.2) =
              getCell g0 ((r, c).1 + d.1) ((r, c).2 + d.2) := by
            rw [hset_ne ((r, c).1 + d.1, (r, c).2 + d.2) hin2 hxne]
            have hg := inv.hgrid ((r, c).1 + d.1, (r, c).2 + d.2) hin2
            rw [if_neg (by rintro ⟨hv3, -⟩; exact hxv hv3)] at hg
            exact hg
          rcases hcov d hd hin2 (by rw [htrans]; exact hnb2)
              (by rw [htrans]; exact ho2) with h | h
          · exact absurd h hxv
          · exact List.mem_append_right _ h
      · have hnq0 : p ∉ (r, c) :: rest := by
          intro hmem
          rcases List.mem_cons.mp hmem with he | he
          · exact hpe he
          · exact hnq (List.mem_append_left _ he)
        exact List.mem_append_left _ (inv.hclosed p hpv2 hnq0 d hd hin2 hnb2 ho2)
    · exact absurd (List.mem_append_right _ hpnews) hnq

/-- Running the BFS loop from an invariant state with enough fuel drains the
queue and preserves the invariant. The measure argument: each iteration
consumes one unit of fuel, removes one queue entry and adds the same number
of entries to the queue and to the visited set, and the visited set is a
duplicate-free list of in-bounds cells, hence bounded by `H * W`. -/
theorem floodLoopB_run (dirs : List (Int × Int)) (g0 : Grid) (orig new : String)
    (b : Option String) (s : Int × Int) (hrect : rectangular g0) :
    ∀ (fuel : Nat) (g : Grid) (q v : List (Int × Int)) (n : Nat),
      Inv dirs g0 orig new b s g q v n →
      gridHeight g0 * gridWidth g0 + q.length ≤ fuel + v.length →
      ∃ g2 v2 n2,
        floodLoopB dirs (gridHeight g0) (gridWidth g0) orig new b fuel g q v n =
          (g2, [], v2, n2) ∧
        Inv dirs g0 orig new b s g2 [] v2 n2 := by
  intro fuel
  induction fuel with
  | zero =>
    intro g q v n inv hm
    have hvb : v.length ≤ gridHeight g0 * gridWidth g0 :=
      nodup_inBounds_length_le _ _ v inv.hvnd inv.hvin
    have hq0 : q.length = 0 := by omega
    have hq : q = [] := List.eq_nil_of_length_eq_zero hq0
    subst hq
    exact ⟨g, v, n, rfl, inv⟩
  | succ fuel ih =>
    intro g q v n inv hm
    match q with
    | [] => exact ⟨g, v, n, rfl, inv⟩
    | (r, c) :: rest =>
      obtain ⟨hcheck, news, heq, inv2⟩ := Inv_step hrect inv
      have hm2 : gridHeight g0 * gridWidth g0 + (rest ++ news).length ≤
          fuel + (v ++ news).length := by
        have hml := hm
        simp only [List.length_cons, List.length_append] at hml ⊢
        omega
      obtain ⟨g2, v2, n2, hrun, invf⟩ := ih _ _ _ _ inv2 hm2
      refine ⟨g2, v2, n2, ?_, invf⟩
      rw [floodLoopB, if_pos hcheck]
      simp only [heq]
      exact hrun

/-- Specification of one full BFS run started from an in-bounds seed, with
fuel `height * width` as passed by the top-level functions: the loop drains
the queue; the final visited set is exactly the component of the seed under
`ReachB`; the returned count is its size; the grid keeps its shape, cells in
the component are overwritten with the new value, and all other in-bounds
cells are untouched. -/
theorem fill_run (dirs : List (Int × Int)) (g : Grid) (sr sc : Int) (new : String)
    (b : Option String) (hrect : rectangular g)
    (hin : inBounds (gridHeight g) (gridWidth g) sr sc) :
    ∃ g2 v2 n2,
      floodLoopB dirs (gridHeight g) (gridWidth g) (getCell g sr sc) new b
        (gridHeight g * gridWidth g) g [(sr, sc)] [(sr, sc)] 0 = (g2, [], v2, n2) ∧
      v2.Nodup ∧
      (∀ p : Int × Int, p ∈ v2 ↔ ReachB dirs g (getCell g sr sc) b (sr, sc) p) ∧
      n2 = v2.length ∧
      (∀ p ∈ v2, inBounds (gridHeight g) (gridWidth g) p.1 p.2) ∧
      (∀ p ∈ v2, getCell g p.1 p.2 = getCell g sr sc) ∧
      g2.length = g.length ∧
      (∀ i, (g2.getD i []).length = (g.getD i []).length) ∧
      (∀ p : Int × Int, inBounds (gridHeight g) (gridWidth g) p.1 p.2 →
        getCell g2 p.1 p.2 = if p ∈ v2 then new else getCell g p.1 p.2) := by
  have inv0 : Inv dirs g (getCell g sr sc) new b (sr, sc) g [(sr, sc)] [(sr, sc)] 0 := by
    refine
      { hsub := fun p hp => hp, hvnd := List.nodup_singleton _
        hqnd := List.nodup_singleton _, hvin := ?_, hvorig := ?_, hvreach := ?_
        hseed := List.mem_singleton_self _, hlen := rfl, hrowlen := fun i => rfl
        hgrid := ?_, hcount := rfl, hclosed := ?_ }
    · intro p hp
      rw [List.mem_singleton] at hp
      subst hp
      exact hin
    · intro p hp
      rw [List.mem_singleton] at hp
      subst hp
      rfl
    · intro p hp
      rw [List.mem_singleton] at hp
      subst hp
      exact ReachB.refl
    · intro p hp
      rw [if_neg (by rintro ⟨h1, h2⟩; exact h2 h1)]
    · intro p hp hnp
      exact absurd hp hnp
  have hm0 : gridHeight g * gridWidth g + ([(sr, sc)] : List (Int × Int)).length ≤
      gridHeight g * gridWidth g + ([(sr, sc)] : List (Int × Int)).length := le_refl _
  obtain ⟨g2, v2, n2, hrun, invf⟩ :=
    floodLoopB_run dirs g (getCell g sr sc) new b (sr, sc) hrect
      (gridHeight g * gridWidth g) g [(sr, sc)] [(sr, sc)] 0 inv0 hm0
  have hcomp : ∀ p : Int × Int, ReachB dirs g (getCell g sr sc) b (sr, sc) p → p ∈ v2 := by
    intro p hp
    induction hp with
    | refl => exact invf.hseed
    | step hp2 hd hin2 hnb ho ih =>
      exact invf.hclosed _ ih (List.not_mem_nil _) _ hd hin2 hnb ho
  refine ⟨g2, v2, n2, hrun, invf.hvnd, ?_, ?_, invf.hvin, invf.hvorig, invf.hlen,
    invf.hrowlen, ?_⟩
  · intro p
    exact ⟨invf.hvreach p, hcomp p⟩
  · have := invf.hcount
    simpa using this
  · intro p hp
    have hg := invf.hgrid p hp
    rw [hg]
    by_cases hv : p ∈ v2
    · rw [if_pos ⟨hv, List.not_mem_nil _⟩, if_pos hv]
    · rw [if_neg (by rintro ⟨h1, -⟩; exact hv h1), if_neg hv]

/-! The plain scan and loop coincide with the boundary-aware ones when no
boundary value is given (`None` is falsy, so the skip branch is inert). -/

theorem scanNbrs_eq (H W : Nat) (g : Grid) (orig : String) (r c : Int) :
    ∀ (ds q v : List (Int × Int)),
      scanNbrs H W g orig r c ds q v = scanNbrsB H W g orig none r c ds q v := by
  intro ds
  induction ds with
  | nil => intro q v; rfl
  | cons d ds ih =>
    intro q v
    rw [scanNbrs, scanNbrsB]
    by_cases h1 : inBounds H W (r + d.1) (c + d.2) ∧ (r + d.1, c + d.2) ∉ v
    · rw [if_pos h1, if_neg (fun h : isBoundary none _ => h.elim)]
      by_cases h3 : getCell g (r + d.1) (c + d.2) = orig
      · rw [if_pos ⟨h1.1, h1.2, h3⟩, if_pos h3, ih]
      · rw [if_neg (by rintro ⟨-, -, hx⟩; exact h3 hx), if_neg h3, ih]
    · rw [if_neg h1, if_neg (by rintro ⟨hx1, hx2, -⟩; exact h1 ⟨hx1, hx2⟩), ih]

theorem floodLoop_eq (dirs : List (Int × Int)) (H W : Nat) (orig new : String) :
    ∀ (fuel : Nat) (g : Grid) (q v : List (Int × Int)) (n : Nat),
      floodLoop dirs H W orig new fuel g q v n =
        floodLoopB dirs H W orig new none fuel g q v n := by
  intro fuel
  induction fuel with
  | zero => intro g q v n; rfl
  | succ fuel ih =>
    intro g q v n
    match q with
    | [] => rfl
    | (r, c) :: rest =>
      by_cases h : getCell g r c = orig
      · simp only [floodLoop, floodLoopB, if_pos h, scanNbrs_eq, ih]
      · simp only [floodLoop, floodLoopB, if_neg h, ih]

/-! Per-function run specifications, each obtained from `fill_run`. -/

theorem perform_spec (g : Grid) (sr sc : Int) (new : String) (hrect : rectangular g)
    (hin : inBounds (gridHeight g) (gridWidth g) sr sc)
    (hne : getCell g sr sc ≠ new) :
    ∃ v2 : List (Int × Int),
      v2.Nodup ∧
      (∀ p : Int × Int, p ∈ v2 ↔ Reach cardinalDirs g (getCell g sr sc) (sr, sc) p) ∧
      (∀ p ∈ v2, inBounds (gridHeight g) (gridWidth g) p.1 p.2) ∧
      (∀ p ∈ v2, getCell g p.1 p.2 = getCell g sr sc) ∧
      (perform_flood_fill g sr sc new).err = none ∧
      (perform_flood_fill g sr sc new).count = v2.length ∧
      (perform_flood_fill g sr sc new).grid.length = g.length ∧
      (∀ i, ((perform_flood_fill g sr sc new).grid.getD i []).length =
        (g.getD i []).length) ∧
      (∀ p : Int × Int, inBounds (gridHeight g) (gridWidth g) p.1 p.2 →
        getCell (perform_flood_fill g sr sc new).grid p.1 p.2 =
          if p ∈ v2 then new else getCell g p.1 p.2) := by
  obtain ⟨g2, v2, n2, hrun, hnd, hiff, hcnt, hvin, hvorig, hlen, hrowlen, hgrid⟩ :=
    fill_run cardinalDirs g sr sc new none hrect hin
  have hres : perform_flood_fill g sr sc new =
      { err := none, grid := g2, count := n2 } := by
    simp only [perform_flood_fill, if_neg (not_not_intro hin), if_neg hne,
      floodLoop_eq, hrun]
  rw [hres]
  exact ⟨v2, hnd, hiff, hvin, hvorig, rfl, hcnt, hlen, hrowlen, hgrid⟩

theorem diagonal_spec (g : Grid) (sr sc : Int) (new : String) (hrect : rectangular g)
    (hin : inBounds (gridHeight g) (gridWidth g) sr sc)
    (hne : getCell g sr sc ≠ new) :
    ∃ v2 : List (Int × Int),
      v2.Nodup ∧
      (∀ p : Int × Int, p ∈ v2 ↔ Reach diagonalDirs g (getCell g sr sc) (sr, sc) p) ∧
      (∀ p ∈ v2, inBounds (gridHeight g) (gridWidth g) p.1 p.2) ∧
      (∀ p ∈ v2, getCell g p.1 p.2 = getCell g sr sc) ∧
      (flood_fill_diagonal g sr sc new).err = none ∧
      (flood_fill_diagonal g sr sc new).count = v2.length ∧
      (flood_fill_diagonal g sr sc new).grid.length = g.length ∧
      (∀ i, ((flood_fill_diagonal g sr sc new).grid.getD i []).length =
        (g.getD i []).length) ∧
      (∀ p : Int × Int, inBounds (gridHeight g) (gridWidth g) p.1 p.2 →
        getCell (flood_fill_diagonal g sr sc new).grid p.1 p.2 =
          if p ∈ v2 then new else getCell g p.1 p.2) := by
  obtain ⟨g2, v2, n2, hrun, hnd, hiff, hcnt, hvin, hvorig, hlen, hrowlen, hgrid⟩ :=
    fill_run diagonalDirs g sr sc new none hrect hin
  have hres : flood_fill_diagonal g sr sc new =
      { err := none, grid := g2, count := n2 } := by
    simp only [flood_fill_diagonal, if_neg (not_not_intro hin), if_neg hne,
      floodLoop_eq, hrun]
  rw [hres]
  exact ⟨v2, hnd, hiff, hvin, hvorig, rfl, hcnt, hlen, hrowlen, hgrid⟩

theorem boundary_spec (g : Grid) (sr sc : Int) (new : String) (b : Option String)
    (hrect : rectangular g)
    (hin : inBounds (gridHeight g) (gridWidth g) sr sc)
    (hne : getCell g sr sc ≠ new) (hnb : ¬ isBoundary b (getCell g sr sc)) :
    ∃ v2 : List (Int × Int),
      v2.Nodup ∧
      (∀ p : Int × Int, p ∈ v2 ↔ ReachB cardinalDirs g (getCell g sr sc) b (sr, sc) p) ∧
      (∀ p ∈ v2, inBounds (gridHeight g) (gridWidth g) p.1 p.2) ∧
      (∀ p ∈ v2, getCell g p.1 p.2 = getCell g sr sc) ∧
      (flood_fill_with_boundary g sr sc new b).err = none ∧
      (flood_fill_with_boundary g sr sc new b).count = v2.length ∧
      (flood_fill_with_boundary g sr sc new b).grid.length = g.length ∧
      (∀ i, ((flood_fill_with_boundary g sr sc new b).grid.getD i []).length =
        (g.getD i []).length) ∧
      (∀ p : Int × Int, inBounds (gridHeight g) (gridWidth g) p.1 p.2 →
        getCell (flood_fill_with_boundary g sr sc new b).grid p.1 p.2 =
          if p ∈ v2 then new else getCell g p.1 p.2) := by
  obtain ⟨g2, v2, n2, hrun, hnd, hiff, hcnt, hvin, hvorig, hlen, hrowlen, hgrid⟩ :=
    fill_run cardinalDirs g sr sc new b hrect hin
  have hres : flood_fill_with_boundary g sr sc new b =
      { err := none, grid := g2, count := n2 } := by
    have hguard : ¬ (getCell g sr sc = new ∨ isBoundary b (getCell g sr sc)) := by
      rintro (h | h)
      · exact hne h
      · exact hnb h
    simp only [flood_fill_with_boundary, if_neg (not_not_intro hin), hrun]
    rw [if_neg hguard]
  rw [hres]
  exact ⟨v2, hnd, hiff, hvin, hvorig, rfl, hcnt, hlen, hrowlen, hgrid⟩

/-! Early-return behaviour shared by the claims. -/

/-- An out-of-bounds seed makes every variant raise the range error with the
grid untouched: the validation precedes every write. -/
theorem oob_result (g : Grid) (sr sc : Int) (new : String) (b : Option String)
    (h : ¬ inBounds (gridHeight g) (gridWidth g) sr sc) :
    perform_flood_fill g sr sc new =
      { err := some "Starting coordinates are outside the grid", grid := g, count := 0 } ∧
    flood_fill_diagonal g sr sc new =
      { err := some "Starting coordinates are outside the grid", grid := g, count := 0 } ∧
    flood_fill_with_boundary g sr sc new b =
      { err := some "Starting coordinates are outside the grid", grid := g, count := 0 } := by
  refine ⟨?_, ?_, ?_⟩
  · simp only [perform_flood_fill, if_pos h]
  · simp only [flood_fill_diagonal, if_pos h]
  · simp only [flood_fill_with_boundary, if_pos h]

/-- A seed already holding the replacement value makes every variant return
count 0 with the grid untouched. -/
theorem noop_result (g : Grid) (sr sc : Int) (new : String) (b : Option String)
    (hin : inBounds (gridHeight g) (gridWidth g) sr sc)
    (heq : getCell g sr sc = new) :
    perform_flood_fill g sr sc new = { err := none, grid := g, count := 0 } ∧
    flood_fill_diagonal g sr sc new = { err := none, grid := g, count := 0 } ∧
    flood_fill_with_boundary g sr sc new b = { err := none, grid := g, count := 0 } := by
  refine ⟨?_, ?_, ?_⟩
  · simp only [perform_flood_fill, if_neg (not_not_intro hin), if_pos heq]
  · simp only [flood_fill_diagonal, if_neg (not_not_intro hin), if_pos heq]
  · simp only [flood_fill_with_boundary, if_neg (not_not_intro hin),
      if_pos (Or.inl heq)]

/-- A seed sitting on a truthy boundary value makes the boundary variant
return count 0 with the grid untouched. -/
theorem seed_on_boundary_result (g : Grid) (sr sc : Int) (new : String)
    (b : Option String) (hin : inBounds (gridHeight g) (gridWidth g) sr sc)
    (hb : isBoundary b (getCell g sr sc)) :
    flood_fill_with_boundary g sr sc new b = { err := none, grid := g, count := 0 } := by
  simp only [flood_fill_with_boundary, if_neg (not_not_intro hin),
    if_pos (Or.inr hb)]

/-! Counting helpers. -/

/-- A duplicate-free list agreeing with a predicate has the cardinality of
any finite set agreeing with the same predicate. -/
theorem length_eq_card_of_iff (v2 : List (Int × Int)) (hnd : v2.Nodup)
    {P : Int × Int → Prop} (hiff : ∀ p, p ∈ v2 ↔ P p)
    (S : Finset (Int × Int)) (hS : ∀ p, p ∈ S ↔ P p) : v2.length = S.card := by
  classical
  have hset : S = v2.toFinset := by
    ext p
    rw [hS, List.mem_toFinset, hiff]
  rw [hset, List.toFinset_card_of_nodup hnd]

/-- The changed-cell set of a fill run is exactly the visited set. -/
theorem changedCells_eq (g g2 : Grid) (v2 : List (Int × Int)) (orig new : String)
    (hone : orig ≠ new)
    (hvin : ∀ p ∈ v2, inBounds (gridHeight g) (gridWidth g) p.1 p.2)
    (hvorig : ∀ p ∈ v2, getCell g p.1 p.2 = orig)
    (hgrid : ∀ p : Int × Int, inBounds (gridHeight g) (gridWidth g) p.1 p.2 →
      getCell g2 p.1 p.2 = if p ∈ v2 then new else getCell g p.1 p.2) :
    changedCells g g2 = v2.toFinset := by
  classical
  ext p
  rw [changedCells, Finset.mem_filter, mem_boundsFinset, List.mem_toFinset]
  constructor
  · rintro ⟨hb, hch⟩
    by_contra hv
    rw [hgrid p hb, if_neg hv] at hch
    exact hch rfl
  · intro hv
    refine ⟨hvin p hv, ?_⟩
    rw [hgrid p (hvin p hv), if_pos hv, hvorig p hv]
    exact fun he => hone he.symm

/-! Claim theorems. -/

/-- Claim C5: for every grid and every out-of-bounds seed coordinate, each
fill variant raises the range error and the grid is left entirely unchanged
(validation happens before any write). -/
theorem claim5 (g : Grid) (sr sc : Int) (new : String) (b : Option String)
    (h : ¬ inBounds (gridHeight g) (gridWidth g) sr sc) :
    (perform_flood_fill g sr sc new).err =
      some "Starting coordinates are outside the grid" ∧
    (perform_flood_fill g sr sc new).grid = g ∧
    (flood_fill_diagonal g sr sc new).err =
      some "Starting coordinates are outside the grid" ∧
    (flood_fill_diagonal g sr sc new).grid = g ∧
    (flood_fill_with_boundary g sr sc new b).err =
      some "Starting coordinates are outside the grid" ∧
    (flood_fill_with_boundary g sr sc new b).grid = g := by
  obtain ⟨h1, h2, h3⟩ := oob_result g sr sc new b h
  rw [h1, h2, h3]
  exact ⟨rfl, rfl, rfl, rfl, rfl, rfl⟩

theorem claim5_witness :
    (¬ inBounds (gridHeight [["-", "-", "-"], ["-", "-", "-"], ["-", "-", "-"]])
        (gridWidth [["-", "-", "-"], ["-", "-", "-"], ["-", "-", "-"]]) 5 5) ∧
    ((perform_flood_fill [["-", "-", "-"], ["-", "-", "-"], ["-", "-", "-"]] 5 5 "X").err =
        some "Starting coordinates are outside the grid" ∧
      (perform_flood_fill [["-", "-", "-"], ["-", "-", "-"], ["-", "-", "-"]] 5 5 "X").grid =
        [["-", "-", "-"], ["-", "-", "-"], ["-", "-", "-"]] ∧
      (flood_fill_diagonal [["-", "-", "-"], ["-", "-", "-"], ["-", "-", "-"]] 5 5 "X").err =
        some "Starting coordinates are outside the grid" ∧
      (flood_fill_diagonal [["-", "-", "-"], ["-", "-", "-"], ["-", "-", "-"]] 5 5 "X").grid =
        [["-", "-", "-"], ["-", "-", "-"], ["-", "-", "-"]] ∧
      (flood_fill_with_boundary [["-", "-", "-"], ["-", "-", "-"], ["-", "-", "-"]] 5 5 "X" none).err =
        some "Starting coordinates are outside the grid" ∧
      (flood_fill_with_boundary [["-", "-", "-"], ["-", "-", "-"], ["-", "-", "-"]] 5 5 "X" none).grid =
        [["-", "-", "-"], ["-", "-", "-"], ["-", "-", "-"]]) :=
  ⟨by decide, claim5 [["-", "-", "-"], ["-", "-", "-"], ["-", "-", "-"]] 5 5 "X" none (by decide)⟩

/-- Claim C10: on the empty grid, and on any grid whose first row is empty,
every fill variant raises the out-of-range error for every seed coordinate
(the width is treated as 0, so no coordinate is in bounds) and leaves the
grid unchanged. -/
theorem claim10 (g : Grid) (sr sc : Int) (new : String) (b : Option String)
    (h : g.length = 0 ∨ (g.getD 0 []).length = 0) :
    (perform_flood_fill g sr sc new).err =
      some "Starting coordinates are outside the grid" ∧
    (perform_flood_fill g sr sc new).grid = g ∧
    (flood_fill_diagonal g sr sc new).err =
      some "Starting coordinates are outside the grid" ∧
    (flood_fill_diagonal g sr sc new).grid = g ∧
    (flood_fill_with_boundary g sr sc new b).err =
      some "Starting coordinates are outside the grid" ∧
    (flood_fill_with_boundary g sr sc new b).grid = g := by
  have hw : gridWidth g = 0 := by
    rcases h with h | h
    · cases g with
      | nil => rfl
      | cons row rest => simp at h
    · rw [gridWidth_eq_getD]
      exact h
  have hnb : ¬ inBounds (gridHeight g) (gridWidth g) sr sc := by
    rw [hw]
    rintro ⟨h1, h2, h3, h4⟩
    omega
  obtain ⟨h1, h2, h3⟩ := oob_result g sr sc new b hnb
  rw [h1, h2, h3]
  exact ⟨rfl, rfl, rfl, rfl, rfl, rfl⟩

theorem claim10_witness :
    (([] : Grid).length = 0 ∨ (([] : Grid).getD 0 []).length = 0) ∧
    ((perform_flood_fill [] 0 0 "X").err =
        some "Starting coordinates are outside the grid" ∧
      (perform_flood_fill [] 0 0 "X").grid = [] ∧
      (flood_fill_diagonal [] 0 0 "X").err =
        some "Starting coordinates are outside the grid" ∧
      (flood_fill_diagonal [] 0 0 "X").grid = [] ∧
      (flood_fill_with_boundary [] 0 0 "X" none).err =
        some "Starting coordinates are outside the grid" ∧
      (flood_fill_with_boundary [] 0 0 "X" none).grid = []) :=
  ⟨by decide, claim10 [] 0 0 "X" none (by decide)⟩

/-- Claim C6: for every rectangular grid and in-bounds seed whose value
already equals the replacement value, each fill variant returns 0 and leaves
the grid identical to its input (a defined no-op; rectangularity is not even
needed). -/
theorem claim6 (g : Grid) (sr sc : Int) (new : String) (b : Option String)
    (hin : inBounds (gridHeight g) (gridWidth g) sr sc)
    (heq : getCell g sr sc = new) :
    perform_flood_fill g sr sc new = { err := none, grid := g, count := 0 } ∧
    flood_fill_diagonal g sr sc new = { err := none, grid := g, count := 0 } ∧
    flood_fill_with_boundary g sr sc new b = { err := none, grid := g, count := 0 } :=
  noop_result g sr sc new b hin heq

theorem claim6_witness :
    (inBounds (gridHeight [["X"]]) (gridWidth [["X"]]) 0 0) ∧
    (getCell [["X"]] 0 0 = "X") ∧
    (perform_flood_fill [["X"]] 0 0 "X" = { err := none, grid := [["X"]], count := 0 } ∧
      flood_fill_diagonal [["X"]] 0 0 "X" = { err := none, grid := [["X"]], count := 0 } ∧
      flood_fill_with_boundary [["X"]] 0 0 "X" none =
        { err := none, grid := [["X"]], count := 0 }) :=
  ⟨by decide, by decide, claim6 [["X"]] 0 0 "X" none (by decide) (by decide)⟩

/-- Claim C4 counterexample: the claim fails as stated when the supplied
boundary value is the empty string. The Python guard `if boundary_shape and
original_shape == boundary_shape` treats the falsy empty string as unset,
so with grid `[["", ""]]`, seed `(0, 0)` (whose value equals the supplied
boundary `""`) and replacement `"X"`, the call fills 2 cells instead of
returning 0 with the grid unchanged. -/
theorem claim4_counterexample :
    getCell [["", ""]] 0 0 = "" ∧
    ¬ ((flood_fill_with_boundary [["", ""]] 0 0 "X" (some "")).count = 0 ∧
       (flood_fill_with_boundary [["", ""]] 0 0 "X" (some "")).grid = [["", ""]]) := by
  decide

/-- Claim C4 (amended): for every grid, in-bounds seed and supplied
non-empty boundary value equal to the value of the grid at the seed,
`flood_fill_with_boundary` returns 0 immediately and leaves the grid
unchanged. -/
theorem claim4_amended (g : Grid) (sr sc : Int) (new : String) (bb : String)
    (hin : inBounds (gridHeight g) (gridWidth g) sr sc)
    (hbne : bb ≠ "") (heq : getCell g sr sc = bb) :
    flood_fill_with_boundary g sr sc new (some bb) =
      { err := none, grid := g, count := 0 } :=
  seed_on_boundary_result g sr sc new (some bb) hin ⟨hbne, heq⟩

theorem claim4_witness :
    (inBounds (gridHeight [["#", "-"]]) (gridWidth [["#", "-"]]) 0 0) ∧
    ("#" ≠ "") ∧ (getCell [["#", "-"]] 0 0 = "#") ∧
    flood_fill_with_boundary [["#", "-"]] 0 0 "O" (some "#") =
      { err := none, grid := [["#", "-"]], count := 0 } :=
  ⟨by decide, by decide, by decide,
    claim4_amended [["#", "-"]] 0 0 "O" "#" (by decide) (by decide) (by decide)⟩

/-- Claim C9: for every grid, seed and replacement value,
`flood_fill_with_boundary` with no boundary value behaves exactly like
`perform_flood_fill`: same error, same count, same final grid. -/
theorem claim9 (g : Grid) (sr sc : Int) (new : String) :
    flood_fill_with_boundary g sr sc new none = perform_flood_fill g sr sc new := by
  by_cases h1 : inBounds (gridHeight g) (gridWidth g) sr sc
  · by_cases h2 : getCell g sr sc = new
    · rw [(noop_result g sr sc new none h1 h2).2.2, (noop_result g sr sc new none h1 h2).1]
    · simp only [perform_flood_fill, flood_fill_with_boundary,
        if_neg (not_not_intro h1)]
      rw [if_neg h2,
        if_neg (fun h => by rcases h with h | h; exacts [h2 h, h.elim]),
        floodLoop_eq]
  · rw [(oob_result g sr sc new none h1).2.2, (oob_result g sr sc new none h1).1]

/-- Claim C1: for every rectangular grid, in-bounds seed, and replacement
value distinct from the original value at the seed, after `perform_flood_fill`
(respectively `flood_fill_diagonal`) returns, every cell reachable from the
seed via 4-adjacency (respectively 8-adjacency) through cells originally
equal to the seed value holds the replacement value, and every cell not so
reachable holds its original value unchanged. -/
theorem claim1 (g : Grid) (sr sc : Int) (new : String)
    (hrect : rectangular g)
    (hin : inBounds (gridHeight g) (gridWidth g) sr sc)
    (hne : getCell g sr sc ≠ new) :
    ((perform_flood_fill g sr sc new).err = none ∧
      ∀ r c : Int, inBounds (gridHeight g) (gridWidth g) r c →
        (Reach cardinalDirs g (getCell g sr sc) (sr, sc) (r, c) →
          getCell (perform_flood_fill g sr sc new).grid r c = new) ∧
        (¬ Reach cardinalDirs g (getCell g sr sc) (sr, sc) (r, c) →
          getCell (perform_flood_fill g sr sc new).grid r c = getCell g r c)) ∧
    ((flood_fill_diagonal g sr sc new).err = none ∧
      ∀ r c : Int, inBounds (gridHeight g) (gridWidth g) r c →
        (Reach diagonalDirs g (getCell g sr sc) (sr, sc) (r, c) →
          getCell (flood_fill_diagonal g sr sc new).grid r c = new) ∧
        (¬ Reach diagonalDirs g (getCell g sr sc) (sr, sc) (r, c) →
          getCell (flood_fill_diagonal g sr sc new).grid r c = getCell g r c)) := by
  constructor
  · obtain ⟨v2, hnd, hiff, hvin, hvorig, herr, hcnt, hlen, hrowlen, hgrid⟩ :=
      perform_spec g sr sc new hrect hin hne
    refine ⟨herr, ?_⟩
    intro r c hrc
    constructor
    · intro hreach
      have hg := hgrid (r, c) hrc
      rw [if_pos ((hiff (r, c)).mpr hreach)] at hg
      exact hg
    · intro hnreach
      have hg := hgrid (r, c) hrc
      rw [if_neg (fun hv => hnreach ((hiff (r, c)).mp hv))] at hg
      exact hg
  · obtain ⟨v2, hnd, hiff, hvin, hvorig, herr, hcnt, hlen, hrowlen, hgrid⟩ :=
      diagonal_spec g sr sc new hrect hin hne
    refine ⟨herr, ?_⟩
    intro r c hrc
    constructor
    · intro hreach
      have hg := hgrid (r, c) hrc
      rw [if_pos ((hiff (r, c)).mpr hreach)] at hg
      exact hg
    · intro hnreach
      have hg := hgrid (r, c) hrc
      rw [if_neg (fun hv => hnreach ((hiff (r, c)).mp hv))] at hg
      exact hg

theorem claim1_witness :
    (rectangular [["-", "X"], ["-", "-"]]) ∧
    (inBounds (gridHeight [["-", "X"], ["-", "-"]])
      (gridWidth [["-", "X"], ["-", "-"]]) 0 0) ∧
    (getCell [["-", "X"], ["-", "-"]] 0 0 ≠ "O") ∧
    (((perform_flood_fill [["-", "X"], ["-", "-"]] 0 0 "O").err = none ∧
      ∀ r c : Int,
        inBounds (gridHeight [["-", "X"], ["-", "-"]])
          (gridWidth [["-", "X"], ["-", "-"]]) r c →
        (Reach cardinalDirs [["-", "X"], ["-", "-"]]
            (getCell [["-", "X"], ["-", "-"]] 0 0) (0, 0) (r, c) →
          getCell (perform_flood_fill [["-", "X"], ["-", "-"]] 0 0 "O").grid r c = "O") ∧
        (¬ Reach cardinalDirs [["-", "X"], ["-", "-"]]
            (getCell [["-", "X"], ["-", "-"]] 0 0) (0, 0) (r, c) →
          getCell (perform_flood_fill [["-", "X"], ["-", "-"]] 0 0 "O").grid r c =
            getCell [["-", "X"], ["-", "-"]] r c)) ∧
      ((flood_fill_diagonal [["-", "X"], ["-", "-"]] 0 0 "O").err = none ∧
      ∀ r c : Int,
        inBounds (gridHeight [["-", "X"], ["-", "-"]])
          (gridWidth [["-", "X"], ["-", "-"]]) r c →
        (Reach diagonalDirs [["-", "X"], ["-", "-"]]
            (getCell [["-", "X"], ["-", "-"]] 0 0) (0, 0) (r, c) →
          getCell (flood_fill_diagonal [["-", "X"], ["-", "-"]] 0 0 "O").grid r c = "O") ∧
        (¬ Reach diagonalDirs [["-", "X"], ["-", "-"]]
            (getCell [["-", "X"], ["-", "-"]] 0 0) (0, 0) (r, c) →
          getCell (flood_fill_diagonal [["-", "X"], ["-", "-"]] 0 0 "O").grid r c =
            getCell [["-", "X"], ["-", "-"]] r c))) :=
  ⟨by decide, by decide, by decide,
    claim1 [["-", "X"], ["-", "-"]] 0 0 "O" (by decide) (by decide) (by decide)⟩

/-- On the one-cell grid `[["-"]]` nothing is reachable from the seed except
the seed itself: every direction leaves the bounds. -/
theorem reach_single (p : Int × Int)
    (h : Reach cardinalDirs [["-"]] "-" (0, 0) p) : p = (0, 0) := by
  induction h with
  | refl => rfl
  | step hp2 hd hin2 hnb ho ih =>
    exfalso
    rw [ih] at hin2
    obtain ⟨h1, h2, h3, h4⟩ := hin2
    simp only [cardinalDirs, List.mem_cons, List.not_mem_nil, or_false] at hd
    simp only [gridHeight, gridWidth, List.length_cons, List.length_nil,
      List.length_singleton] at h2 h4
    rcases hd with rfl | rfl | rfl | rfl <;> simp at h1 h2 h3 h4

/-- Claim C2 counterexample: the claim fails as stated when the replacement
value equals the original value at the seed. On `[["-"]]` with seed `(0, 0)` and
replacement `"-"`, `perform_flood_fill` returns 0, but the connected
component of the seed is the singleton of the seed, of size 1. -/
theorem claim2_counterexample :
    ¬ ∀ S : Finset (Int × Int),
        (∀ p, p ∈ S ↔ Reach cardinalDirs [["-"]] "-" (0, 0) p) →
        (perform_flood_fill [["-"]] 0 0 "-").count = S.card := by
  intro h
  have hS : ∀ p : Int × Int, p ∈ ({((0 : Int), (0 : Int))} : Finset (Int × Int)) ↔
      Reach cardinalDirs [["-"]] "-" (0, 0) p := by
    intro p
    constructor
    · intro hp
      rw [Finset.mem_singleton] at hp
      subst hp
      exact ReachB.refl
    · intro hp
      rw [Finset.mem_singleton]
      exact reach_single p hp
  have hcard := h _ hS
  rw [Finset.card_singleton] at hcard
  have hc : (perform_flood_fill [["-"]] 0 0 "-").count = 0 := by rfl
  omega

/-- Claim C2 (amended): for every rectangular grid, in-bounds seed,
replacement value distinct from the original value at the seed, and (for the
boundary variant) a seed not excluded by the supplied boundary value, the
returned count of each variant equals the number of cells changed by the
call, which equals the size of the connected component of the seed under the
selected adjacency relation (excluding cells equal to a truthy boundary
value for the boundary variant). -/
theorem claim2_amended (g : Grid) (sr sc : Int) (new : String) (b : Option String)
    (hrect : rectangular g)
    (hin : inBounds (gridHeight g) (gridWidth g) sr sc)
    (hne : getCell g sr sc ≠ new)
    (hnb : ¬ isBoundary b (getCell g sr sc)) :
    ((perform_flood_fill g sr sc new).count =
        (changedCells g (perform_flood_fill g sr sc new).grid).card ∧
      ∀ S : Finset (Int × Int),
        (∀ p, p ∈ S ↔ Reach cardinalDirs g (getCell g sr sc) (sr, sc) p) →
        (perform_flood_fill g sr sc new).count = S.card) ∧
    ((flood_fill_diagonal g sr sc new).count =
        (changedCells g (flood_fill_diagonal g sr sc new).grid).card ∧
      ∀ S : Finset (Int × Int),
        (∀ p, p ∈ S ↔ Reach diagonalDirs g (getCell g sr sc) (sr, sc) p) →
        (flood_fill_diagonal g sr sc new).count = S.card) ∧
    ((flood_fill_with_boundary g sr sc new b).count =
        (changedCells g (flood_fill_with_boundary g sr sc new b).grid).card ∧
      ∀ S : Finset (Int × Int),
        (∀ p, p ∈ S ↔ ReachB cardinalDirs g (getCell g sr sc) b (sr, sc) p) →
        (flood_fill_with_boundary g sr sc new b).count = S.card) := by
  refine ⟨?_, ?_, ?_⟩
  · obtain ⟨v2, hnd, hiff, hvin, hvorig, herr, hcnt, hlen, hrowlen, hgrid⟩ :=
      perform_spec g sr sc new hrect hin hne
    constructor
    · rw [hcnt, changedCells_eq g _ v2 (getCell g sr sc) new hne hvin hvorig hgrid,
        List.toFinset_card_of_nodup hnd]
    · intro S hS
      rw [hcnt]
      exact length_eq_card_of_iff v2 hnd hiff S hS
  · obtain ⟨v2, hnd, hiff, hvin, hvorig, herr, hcnt, hlen, hrowlen, hgrid⟩ :=
      diagonal_spec g sr sc new hrect hin hne
    constructor
    · rw [hcnt, changedCells_eq g _ v2 (getCell g sr sc) new hne hvin hvorig hgrid,
        List.toFinset_card_of_nodup hnd]
    · intro S hS
      rw [hcnt]
      exact length_eq_card_of_iff v2 hnd hiff S hS
  · obtain ⟨v2, hnd, hiff, hvin, hvorig, herr, hcnt, hlen, hrowlen, hgrid⟩ :=
      boundary_spec g sr sc new b hrect hin hne hnb
    constructor
    · rw [hcnt, changedCells_eq g _ v2 (getCell g sr sc) new hne hvin hvorig hgrid,
        List.toFinset_card_of_nodup hnd]
    · intro S hS
      rw [hcnt]
      exact length_eq_card_of_iff v2 hnd hiff S hS

theorem claim2_witness :
    (rectangular [["-", "X"], ["-", "-"]]) ∧
    (inBounds (gridHeight [["-", "X"], ["-", "-"]])
      (gridWidth [["-", "X"], ["-", "-"]]) 0 0) ∧
    (getCell [["-", "X"], ["-", "-"]] 0 0 ≠ "O") ∧
    (¬ isBoundary (some "#") (getCell [["-", "X"], ["-", "-"]] 0 0)) ∧
    (((perform_flood_fill [["-", "X"], ["-", "-"]] 0 0 "O").count =
        (changedCells [["-", "X"], ["-", "-"]]
          (perform_flood_fill [["-", "X"], ["-", "-"]] 0 0 "O").grid).card ∧
      ∀ S : Finset (Int × Int),
        (∀ p, p ∈ S ↔ Reach cardinalDirs [["-", "X"], ["-", "-"]]
          (getCell [["-", "X"], ["-", "-"]] 0 0) (0, 0) p) →
        (perform_flood_fill [["-", "X"], ["-", "-"]] 0 0 "O").count = S.card) ∧
    ((flood_fill_diagonal [["-", "X"], ["-", "-"]] 0 0 "O").count =
        (changedCells [["-", "X"], ["-", "-"]]
          (flood_fill_diagonal [["-", "X"], ["-", "-"]] 0 0 "O").grid).card ∧
      ∀ S : Finset (Int × Int),
        (∀ p, p ∈ S ↔ Reach diagonalDirs [["-", "X"], ["-", "-"]]
          (getCell [["-", "X"], ["-", "-"]] 0 0) (0, 0) p) →
        (flood_fill_diagonal [["-", "X"], ["-", "-"]] 0 0 "O").count = S.card) ∧
    ((flood_fill_with_boundary [["-", "X"], ["-", "-"]] 0 0 "O" (some "#")).count =
        (changedCells [["-", "X"], ["-", "-"]]
          (flood_fill_with_boundary [["-", "X"], ["-", "-"]] 0 0 "O" (some "#")).grid).card ∧
      ∀ S : Finset (Int × Int),
        (∀ p, p ∈ S ↔ ReachB cardinalDirs [["-", "X"], ["-", "-"]]
          (getCell [["-", "X"], ["-", "-"]] 0 0) (some "#") (0, 0) p) →
        (flood_fill_with_boundary [["-", "X"], ["-", "-"]] 0 0 "O" (some "#")).count =
          S.card)) :=
  ⟨by decide, by decide, by decide, by decide,
    claim2_amended [["-", "X"], ["-", "-"]] 0 0 "O" (some "#")
      (by decide) (by decide) (by decide) (by decide)⟩

/-- Claim C3 counterexample: the claim fails as stated when the supplied
boundary value is the empty string, which Python truthiness treats as unset.
On `[["", ""]]` with seed `(0, 0)`, replacement `"X"` and boundary `""`, the
cell `(0, 1)` holds the boundary value yet is mutated. -/
theorem claim3_counterexample :
    getCell [["", ""]] 0 1 = "" ∧
    getCell (flood_fill_with_boundary [["", ""]] 0 0 "X" (some "")).grid 0 1 ≠
      getCell [["", ""]] 0 1 := by
  decide

/-- Cells reachable while avoiding a truthy boundary stay inside any region
`A` that contains the seed and whose in-grid neighbours are either in `A` or
hold the boundary value: the formal counterpart of a fully enclosing ring. -/
theorem ReachB_in_region (dirs : List (Int × Int)) (g : Grid) (orig bb : String)
    (hbne : bb ≠ "") (s : Int × Int) (A : Set (Int × Int)) (hs : s ∈ A)
    (hA : ∀ p ∈ A, ∀ d ∈ dirs,
      inBounds (gridHeight g) (gridWidth g) (p.1 + d.1) (p.2 + d.2) →
      ((p.1 + d.1, p.2 + d.2) ∈ A ∨ getCell g (p.1 + d.1) (p.2 + d.2) = bb)) :
    ∀ p, ReachB dirs g orig (some bb) s p → p ∈ A := by
  intro p hp
  induction hp with
  | refl => exact hs
  | step hp2 hd hin2 hnb2 ho2 ih =>
    rcases hA _ ih _ hd hin2 with h | h
    · exact h
    · exact absurd ⟨hbne, h⟩ hnb2

/-- Claim C3 (amended): for every rectangular grid, in-bounds seed and
supplied non-empty boundary value, `flood_fill_with_boundary` never mutates
a cell holding the boundary value, and never mutates a cell outside a region
`A` that contains the seed and is enclosed by boundary-valued cells (every
in-grid neighbour of `A` is in `A` or holds the boundary value). -/
theorem claim3_amended (g : Grid) (sr sc : Int) (new : String) (bb : String)
    (hrect : rectangular g)
    (hin : inBounds (gridHeight g) (gridWidth g) sr sc)
    (hbne : bb ≠ "") :
    (∀ r c : Int, inBounds (gridHeight g) (gridWidth g) r c →
      getCell g r c = bb →
      getCell (flood_fill_with_boundary g sr sc new (some bb)).grid r c =
        getCell g r c) ∧
    (∀ A : Set (Int × Int), (sr, sc) ∈ A →
      (∀ p ∈ A, ∀ d ∈ cardinalDirs,
        inBounds (gridHeight g) (gridWidth g) (p.1 + d.1) (p.2 + d.2) →
        ((p.1 + d.1, p.2 + d.2) ∈ A ∨ getCell g (p.1 + d.1) (p.2 + d.2) = bb)) →
      ∀ r c : Int, inBounds (gridHeight g) (gridWidth g) r c → (r, c) ∉ A →
        getCell (flood_fill_with_boundary g sr sc new (some bb)).grid r c =
          getCell g r c) := by
  by_cases h2 : getCell g sr sc = new
  · rw [(noop_result g sr sc new (some bb) hin h2).2.2]
    exact ⟨fun r c _ _ => rfl, fun A _ _ r c _ _ => rfl⟩
  · by_cases h3 : isBoundary (some bb) (getCell g sr sc)
    · rw [seed_on_boundary_result g sr sc new (some bb) hin h3]
      exact ⟨fun r c _ _ => rfl, fun A _ _ r c _ _ => rfl⟩
    · obtain ⟨v2, hnd, hiff, hvin, hvorig, herr, hcnt, hlen, hrowlen, hgrid⟩ :=
        boundary_spec g sr sc new (some bb) hrect hin h2 h3
      have horigne : getCell g sr sc ≠ bb := fun he => h3 ⟨hbne, he⟩
      constructor
      · intro r c hrc hbc
        have hg := hgrid (r, c) hrc
        rw [if_neg (fun hv =>
          horigne (by rw [← hvorig (r, c) hv]; exact hbc))] at hg
        exact hg
      · intro A hsA hA r c hrc hnA
        have hg := hgrid (r, c) hrc
        rw [if_neg (fun hv => hnA
          (ReachB_in_region cardinalDirs g (getCell g sr sc) bb hbne (sr, sc) A
            hsA hA (r, c) ((hiff (r, c)).mp hv)))] at hg
        exact hg

theorem claim3_witness :
    (rectangular [["#", "#", "#"], ["#", "-", "#"], ["#", "#", "#"]]) ∧
    (inBounds (gridHeight [["#", "#", "#"], ["#", "-", "#"], ["#", "#", "#"]])
      (gridWidth [["#", "#", "#"], ["#", "-", "#"], ["#", "#", "#"]]) 1 1) ∧
    ("#" ≠ "") ∧
    ((∀ r c : Int,
        inBounds (gridHeight [["#", "#", "#"], ["#", "-", "#"], ["#", "#", "#"]])
          (gridWidth [["#", "#", "#"], ["#", "-", "#"], ["#", "#", "#"]]) r c →
        getCell [["#", "#", "#"], ["#", "-", "#"], ["#", "#", "#"]] r c = "#" →
        getCell (flood_fill_with_boundary
            [["#", "#", "#"], ["#", "-", "#"], ["#", "#", "#"]] 1 1 "O" (some "#")).grid
            r c =
          getCell [["#", "#", "#"], ["#", "-", "#"], ["#", "#", "#"]] r c) ∧
      (∀ A : Set (Int × Int), ((1 : Int), (1 : Int)) ∈ A →
        (∀ p ∈ A, ∀ d ∈ cardinalDirs,
          inBounds (gridHeight [["#", "#", "#"], ["#", "-", "#"], ["#", "#", "#"]])
            (gridWidth [["#", "#", "#"], ["#", "-", "#"], ["#", "#", "#"]])
            (p.1 + d.1) (p.2 + d.2) →
          ((p.1 + d.1, p.2 + d.2) ∈ A ∨
            getCell [["#", "#", "#"], ["#", "-", "#"], ["#", "#", "#"]]
              (p.1 + d.1) (p.2 + d.2) = "#")) →
        ∀ r c : Int,
          inBounds (gridHeight [["#", "#", "#"], ["#", "-", "#"], ["#", "#", "#"]])
            (gridWidth [["#", "#", "#"], ["#", "-", "#"], ["#", "#", "#"]]) r c →
          (r, c) ∉ A →
          getCell (flood_fill_with_boundary
              [["#", "#", "#"], ["#", "-", "#"], ["#", "#", "#"]] 1 1 "O" (some "#")).grid
              r c =
            getCell [["#", "#", "#"], ["#", "-", "#"], ["#", "#", "#"]] r c)) :=
  ⟨by decide, by decide, by decide,
    claim3_amended [["#", "#", "#"], ["#", "-", "#"], ["#", "#", "#"]] 1 1 "O" "#"
      (by decide) (by decide) (by decide)⟩

/-- Claim C7: for every rectangular grid, in-bounds seed and replacement
value, immediately repeating the same fill variant on the resulting grid
with the same seed and replacement returns 0 and leaves the grid unchanged
(after a successful fill the original value is no longer present at the
seed; in the no-op cases the second call repeats the no-op). -/
theorem claim7 (g : Grid) (sr sc : Int) (new : String) (b : Option String)
    (hrect : rectangular g)
    (hin : inBounds (gridHeight g) (gridWidth g) sr sc) :
    perform_flood_fill (perform_flood_fill g sr sc new).grid sr sc new =
      { err := none, grid := (perform_flood_fill g sr sc new).grid, count := 0 } ∧
    flood_fill_diagonal (flood_fill_diagonal g sr sc new).grid sr sc new =
      { err := none, grid := (flood_fill_diagonal g sr sc new).grid, count := 0 } ∧
    flood_fill_with_boundary (flood_fill_with_boundary g sr sc new b).grid sr sc new b =
      { err := none, grid := (flood_fill_with_boundary g sr sc new b).grid, count := 0 } := by
  refine ⟨?_, ?_, ?_⟩
  · by_cases h2 : getCell g sr sc = new
    · rw [(noop_result g sr sc new b hin h2).1]
      exact (noop_result g sr sc new b hin h2).1
    · obtain ⟨v2, hnd, hiff, hvin, hvorig, herr, hcnt, hlen, hrowlen, hgrid⟩ :=
        perform_spec g sr sc new hrect hin h2
      have hin2 : inBounds (gridHeight (perform_flood_fill g sr sc new).grid)
          (gridWidth (perform_flood_fill g sr sc new).grid) sr sc := by
        have hdh : gridHeight (perform_flood_fill g sr sc new).grid = gridHeight g := hlen
        have hdw : gridWidth (perform_flood_fill g sr sc new).grid = gridWidth g := by
          rw [gridWidth_eq_getD, gridWidth_eq_getD, hrowlen]
        rw [hdh, hdw]
        exact hin
      have hseedv : (sr, sc) ∈ v2 := (hiff (sr, sc)).mpr ReachB.refl
      have hnewseed : getCell (perform_flood_fill g sr sc new).grid sr sc = new := by
        have hg := hgrid (sr, sc) hin
        rw [if_pos hseedv] at hg
        exact hg
      exact (noop_result _ sr sc new b hin2 hnewseed).1
  · by_cases h2 : getCell g sr sc = new
    · rw [(noop_result g sr sc new b hin h2).2.1]
      exact (noop_result g sr sc new b hin h2).2.1
    · obtain ⟨v2, hnd, hiff, hvin, hvorig, herr, hcnt, hlen, hrowlen, hgrid⟩ :=
        diagonal_spec g sr sc new hrect hin h2
      have hin2 : inBounds (gridHeight (flood_fill_diagonal g sr sc new).grid)
          (gridWidth (flood_fill_diagonal g sr sc new).grid) sr sc := by
        have hdh : gridHeight (flood_fill_diagonal g sr sc new).grid = gridHeight g := hlen
        have hdw : gridWidth (flood_fill_diagonal g sr sc new).grid = gridWidth g := by
          rw [gridWidth_eq_getD, gridWidth_eq_getD, hrowlen]
        rw [hdh, hdw]
        exact hin
      have hseedv : (sr, sc) ∈ v2 := (hiff (sr, sc)).mpr ReachB.refl
      have hnewseed : getCell (flood_fill_diagonal g sr sc new).grid sr sc = new := by
        have hg := hgrid (sr, sc) hin
        rw [if_pos hseedv] at hg
        exact hg
      exact (noop_result _ sr sc new b hin2 hnewseed).2.1
  · by_cases h2 : getCell g sr sc = new
    · rw [(noop_result g sr sc new b hin h2).2.2]
      exact (noop_result g sr sc new b hin h2).2.2
    · by_cases h3 : isBoundary b (getCell g sr sc)
      · rw [seed_on_boundary_result g sr sc new b hin h3]
        exact seed_on_boundary_result g sr sc new b hin h3
      · obtain ⟨v2, hnd, hiff, hvin, hvorig, herr, hcnt, hlen, hrowlen, hgrid⟩ :=
          boundary_spec g sr sc new b hrect hin h2 h3
        have hin2 : inBounds (gridHeight (flood_fill_with_boundary g sr sc new b).grid)
            (gridWidth (flood_fill_with_boundary g sr sc new b).grid) sr sc := by
          have hdh : gridHeight (flood_fill_with_boundary g sr sc new b).grid =
              gridHeight g := hlen
          have hdw : gridWidth (flood_fill_with_boundary g sr sc new b).grid =
              gridWidth g := by
            rw [gridWidth_eq_getD, gridWidth_eq_getD, hrowlen]
          rw [hdh, hdw]
          exact hin
        have hseedv : (sr, sc) ∈ v2 := (hiff (sr, sc)).mpr ReachB.refl
        have hnewseed : getCell (flood_fill_with_boundary g sr sc new b).grid sr sc =
            new := by
          have hg := hgrid (sr, sc) hin
          rw [if_pos hseedv] at hg
          exact hg
        exact (noop_result _ sr sc new b hin2 hnewseed).2.2

theorem claim7_witness :
    (rectangular [["-", "X"], ["-", "-"]]) ∧
    (inBounds (gridHeight [["-", "X"], ["-", "-"]])
      (gridWidth [["-", "X"], ["-", "-"]]) 0 0) ∧
    (perform_flood_fill (perform_flood_fill [["-", "X"], ["-", "-"]] 0 0 "O").grid 0 0 "O" =
      { err := none, grid := (perform_flood_fill [["-", "X"], ["-", "-"]] 0 0 "O").grid,
        count := 0 } ∧
    flood_fill_diagonal (flood_fill_diagonal [["-", "X"], ["-", "-"]] 0 0 "O").grid 0 0 "O" =
      { err := none, grid := (flood_fill_diagonal [["-", "X"], ["-", "-"]] 0 0 "O").grid,
        count := 0 } ∧
    flood_fill_with_boundary
        (flood_fill_with_boundary [["-", "X"], ["-", "-"]] 0 0 "O" (some "#")).grid
        0 0 "O" (some "#") =
      { err := none,
        grid := (flood_fill_with_boundary [["-", "X"], ["-", "-"]] 0 0 "O" (some "#")).grid,
        count := 0 }) :=
  ⟨by decide, by decide,
    claim7 [["-", "X"], ["-", "-"]] 0 0 "O" (some "#") (by decide) (by decide)⟩

/-- Claim C8: for every rectangular grid and in-bounds seed the count of the
8-directional fill is at least the count of the 4-directional fill, and on
the checkerboard `[["-", "X"], ["X", "-"]]` with seed `(0, 0)` the cardinal
count is 1 while the diagonal count is 2. -/
theorem claim8 :
    (∀ (g : Grid) (sr sc : Int) (new : String), rectangular g →
      inBounds (gridHeight g) (gridWidth g) sr sc →
      (perform_flood_fill g sr sc new).count ≤ (flood_fill_diagonal g sr sc new).count) ∧
    (perform_flood_fill [["-", "X"], ["X", "-"]] 0 0 "O").count = 1 ∧
    (flood_fill_diagonal [["-", "X"], ["X", "-"]] 0 0 "O").count = 2 := by
  refine ⟨?_, rfl, rfl⟩
  intro g sr sc new hrect hin
  by_cases hne : getCell g sr sc = new
  · rw [(noop_result g sr sc new none hin hne).1,
      (noop_result g sr sc new none hin hne).2.1]
  · obtain ⟨vc, hndc, hiffc, -, -, -, hcntc, -, -, -⟩ :=
      perform_spec g sr sc new hrect hin hne
    obtain ⟨vd, hndd, hiffd, -, -, -, hcntd, -, -, -⟩ :=
      diagonal_spec g sr sc new hrect hin hne
    rw [hcntc, hcntd]
    have hsubd : ∀ d ∈ cardinalDirs, d ∈ diagonalDirs := by decide
    have hsub : vc.toFinset ⊆ vd.toFinset := by
      intro p hp
      rw [List.mem_toFinset] at hp ⊢
      exact (hiffd p).mpr (ReachB.mono_dirs hsubd ((hiffc p).mp hp))
    have hcard := Finset.card_le_card hsub
    rw [List.toFinset_card_of_nodup hndc, List.toFinset_card_of_nodup hndd] at hcard
    exact hcard

theorem claim8_witness :
    rectangular [["-", "X"], ["X", "-"]] ∧
    inBounds (gridHeight [["-", "X"], ["X", "-"]])
      (gridWidth [["-", "X"], ["X", "-"]]) 0 0 ∧
    (perform_flood_fill [["-", "X"], ["X", "-"]] 0 0 "O").count ≤
      (flood_fill_diagonal [["-", "X"], ["X", "-"]] 0 0 "O").count :=
  ⟨by decide, by decide,
    claim8.1 [["-", "X"], ["X", "-"]] 0 0 "O" (by decide) (by decide)⟩

end FloodFill
